import Mathlib

/-!
Verification of the configuration resolution engine and the software-solver
admission predicate of the dwave_micro_client repository.

The repository ships `tests/test_config.py` (exercising `dwave.cloud.config`)
and `dwave/cloud/sw.py`.  The module `dwave/cloud/config.py` itself is not in
the source tree, so its data model and operations are modelled from the
specification (see the doc comment of each such definition); the behaviour is
cross-checked against the shipped tests.  `is_solver_handled` is embedded
directly from `dwave/cloud/sw.py`.
-/

namespace Dwave

/-- An ordered key/value mapping with string keys, the shape of one parsed
configuration section and of the environment mapping. -/
abbrev KVMap := List (String × String)

/-- Modelled from the spec: a ParsedFile is an ordered mapping from section
name to an ordered mapping from key to raw string value (`dwave.cloud.config`
is not in the source tree). -/
abbrev ParsedFile := List (String × KVMap)

/-- Modelled from the spec: a MergedConfig is an ordered mapping from section
name to key/value mapping obtained by folding ParsedFiles together. -/
abbrev MergedConfig := List (String × KVMap)

/-- The process environment, captured as an explicit mapping. -/
abbrev Env := List (String × String)

/-- First-match association lookup on an ordered mapping. -/
def alookup {α : Type} : List (String × α) → String → Option α
  | [], _ => none
  | (k, v) :: rest, key => if k = key then some v else alookup rest key

/-- Does the ordered mapping contain an entry with the given name? -/
def hasName {α : Type} (l : List (String × α)) (s : String) : Bool :=
  l.any (fun e => decide (e.1 = s))

/-- Modelled from the spec: the error taxonomy of the configuration engine
(`dwave.cloud.config` is not in the source tree).  `readError` models
ConfigFileReadError, `parseError` models ConfigFileParseError, and
`profileNotFound` models the ValueError raised for a missing profile; the
three are distinguishable kinds. -/
inductive ConfigError where
  | readError (path : String)
  | parseError (msg : String)
  | profileNotFound (name : String)
deriving DecidableEq

/-- Characters stripped from both ends of keys, values and lines. -/
def isSpaceChar (c : Char) : Bool :=
  c == ' ' || c == '\t' || c == '\r' || c == '\n'

/-- Strip leading and trailing whitespace from a list of characters. -/
def trimChars (l : List Char) : List Char :=
  ((l.dropWhile isSpaceChar).reverse.dropWhile isSpaceChar).reverse

/-- Split a character stream into lines at newline characters. -/
def splitLinesAux : List Char → List Char → List (List Char)
  | [], acc => [acc.reverse]
  | c :: rest, acc =>
    if c = '\n' then acc.reverse :: splitLinesAux rest []
    else splitLinesAux rest (c :: acc)

/-- Split a body line at the first occurrence of the delimiter character
`=` or `:`, returning the raw key part and raw value part. -/
def splitAtDelim : List Char → Option (List Char × List Char)
  | [] => none
  | c :: rest =>
    if c = '=' ∨ c = ':' then some ([], rest)
    else
      match splitAtDelim rest with
      | none => none
      | some (pre, post) => some (c :: pre, post)

/-- Flush the section currently being accumulated into the finished list. -/
def flushCur (st : ParsedFile × Option (String × KVMap)) : ParsedFile :=
  match st.2 with
  | none => st.1
  | some nc => st.1 ++ [nc]

/-- Modelled from the spec: one step of the INI-like FileLoader grammar of
`dwave.cloud.config` (not in the source tree): `[section]` header lines,
`key = value` or `key: value` body lines with surrounding whitespace
stripped, blank lines and lines starting with `#` or `;` ignored; a repeated
section name, a repeated key within a section, a malformed line, or a key
outside any section is a ParseError. -/
def stepLine (st : ParsedFile × Option (String × KVMap)) (line : List Char) :
    Except ConfigError (ParsedFile × Option (String × KVMap)) :=
  match trimChars line with
  | [] => Except.ok st
  | c :: cs =>
    if c = '#' ∨ c = ';' then Except.ok st
    else if c = '[' then
      if cs.getLast? = some ']' then
        if hasName (flushCur st) (String.mk (trimChars cs.dropLast)) then
          Except.error (ConfigError.parseError
            ("duplicate section: " ++ String.mk (trimChars cs.dropLast)))
        else
          Except.ok (flushCur st, some (String.mk (trimChars cs.dropLast), []))
      else Except.error (ConfigError.parseError ("malformed section header"))
    else
      match splitAtDelim (c :: cs) with
      | none => Except.error (ConfigError.parseError ("malformed line"))
      | some (pre, post) =>
        match st.2 with
        | none => Except.error (ConfigError.parseError ("key outside any section"))
        | some (n, kvs) =>
          if hasName kvs (String.mk (trimChars pre)) then
            Except.error (ConfigError.parseError
              ("duplicate key: " ++ String.mk (trimChars pre)))
          else
            Except.ok (st.1,
              some (n, kvs ++ [(String.mk (trimChars pre), String.mk (trimChars post))]))

/-- Fold the line-level step over all lines of a file. -/
def parseLinesAux :
    List (List Char) → ParsedFile × Option (String × KVMap) →
    Except ConfigError ParsedFile
  | [], st => Except.ok (flushCur st)
  | line :: rest, st =>
    match stepLine st line with
    | Except.error e => Except.error e
    | Except.ok st' => parseLinesAux rest st'

/-- Modelled from the spec: the FileLoader of `dwave.cloud.config` (not in the
source tree), parsing one file's textual content into a ParsedFile.  Every
failure it produces is a ParseError. -/
def parseFile (content : String) : Except ConfigError ParsedFile :=
  parseLinesAux (splitLinesAux content.toList []) ([], none)

/-- The name of the section header a line declares, if the line is a
well-formed header line (the spec's grammar: the trimmed line starts with
an opening bracket, ends with the closing bracket, and is not a comment). -/
def headerName? (line : List Char) : Option String :=
  match trimChars line with
  | [] => none
  | c :: cs =>
    if c = '#' ∨ c = ';' then none
    else if c = '[' then
      if cs.getLast? = some ']' then some (String.mk (trimChars cs.dropLast))
      else none
    else none

/-- The section names declared by the header lines of a file's content, in
order of appearance; a section name repeating within the file is a repeated
entry of this list. -/
def headerNames (content : String) : List String :=
  (splitLinesAux content.toList []).filterMap headerName?

/-- Does a load result fail with a ParseError? -/
def failsWithParseError (r : Except ConfigError ParsedFile) : Bool :=
  match r with
  | Except.error (ConfigError.parseError _) => true
  | _ => false

/-- The file-system probe and reader collaborator: the ordered auto-detected
candidate list produced by PathResolver (`get_configfile_paths`), and the
content of each readable path. -/
structure FS where
  autodetected : List String
  read : String → Option String

/-- Replace the value at the first occurrence of a key, or append the pair. -/
def setKey : KVMap → String → String → KVMap
  | [], k, v => [(k, v)]
  | (k', v') :: rest, k, v =>
    if k' = k then (k', v) :: rest else (k', v') :: setKey rest k v

/-- Modelled from the spec: per-key override of one section by another, later
values winning (`dwave.cloud.config` is not in the source tree). -/
def mergeKV (base new : KVMap) : KVMap :=
  new.foldl (fun acc kv => setKey acc kv.1 kv.2) base

/-- Modelled from the spec: fold one named section into a merged
configuration, merging per key when the section already exists and appending
it otherwise. -/
def mergeSection : MergedConfig → String → KVMap → MergedConfig
  | [], name, sec => [(name, sec)]
  | (n, s) :: rest, name, sec =>
    if n = name then (n, mergeKV s sec) :: rest
    else (n, s) :: mergeSection rest name sec

/-- Modelled from the spec: fold a whole ParsedFile into a merged
configuration, section by section in order. -/
def mergeFile (m : MergedConfig) (f : ParsedFile) : MergedConfig :=
  f.foldl (fun acc e => mergeSection acc e.1 e.2) m

/-- Modelled from the spec: the ConfigMerger of `dwave.cloud.config` (not in
the source tree): fold an ordered list of ParsedFiles left to right, later
files overriding earlier ones per (section, key) pair. -/
def mergeConfigs (files : List ParsedFile) : MergedConfig :=
  files.foldl mergeFile []

/-- Lookup of the value of a key inside a named section of a merged
configuration. -/
def lookupSK (m : MergedConfig) (s k : String) : Option String :=
  match alookup m s with
  | some sec => alookup sec k
  | none => none

/-- Fallback combination of optional values: the first when present, the
second otherwise. -/
def fb (a b : Option String) : Option String :=
  match a with
  | some v => some v
  | none => b

/-- The value the last file in the list assigns to (section, key): the
specification's description of what the merge must produce. -/
def lastVal (files : List ParsedFile) (s k : String) : Option String :=
  files.foldl (fun acc f => fb (lookupSK f s k) acc) none

/-- A well-formed parsed file: section names unique within the file and keys
unique within each section, as the parser guarantees. -/
def WFFile (f : ParsedFile) : Prop :=
  (f.map Prod.fst).Nodup ∧ ∀ sec ∈ f.map Prod.snd, (sec.map Prod.fst).Nodup

instance (f : ParsedFile) : Decidable (WFFile f) := by
  unfold WFFile; infer_instance

/-- The reserved fallback section of a merged configuration (empty when no
defaults section is present). -/
def defaultsOf (m : MergedConfig) : KVMap :=
  (alookup m "defaults").getD []

/-- All sections of a merged configuration other than the reserved defaults
section, in encounter order. -/
def nonDefaultsOf (m : MergedConfig) : MergedConfig :=
  m.filter (fun e => decide (e.1 ≠ "defaults"))

/-- Fill every key absent from the chosen section with the value from the
defaults section. -/
def withDefaults (d sec : KVMap) : KVMap :=
  sec ++ d.filter (fun kv => !(hasName sec kv.1))

/-- Modelled from the spec: the ProfileSelector of `dwave.cloud.config` (not
in the source tree).  Resolution order: the requested name if given (which
must name an existing non-defaults section, else ProfileNotFoundError, also
when the merged configuration is empty — see the ReadError/ProfileNotFound
taxonomy: "an empty file list simply yields an empty profile, not an error,
unless a name was explicitly requested"); else the name stored under
`profile` in the defaults section, with the same existence requirement; else
the first non-defaults section; else the defaults section itself, which is
the empty mapping when the merged configuration is entirely empty. -/
def selectProfile (m : MergedConfig) (requested : Option String) :
    Except ConfigError KVMap :=
  match requested with
  | some name =>
    match alookup (nonDefaultsOf m) name with
    | some sec => Except.ok (withDefaults (defaultsOf m) sec)
    | none => Except.error (ConfigError.profileNotFound name)
  | none =>
    match alookup (defaultsOf m) "profile" with
    | some name =>
      match alookup (nonDefaultsOf m) name with
      | some sec => Except.ok (withDefaults (defaultsOf m) sec)
      | none => Except.error (ConfigError.profileNotFound name)
    | none =>
      match nonDefaultsOf m with
      | (_, sec) :: _ => Except.ok (withDefaults (defaultsOf m) sec)
      | [] => Except.ok (defaultsOf m)

/-- Read and parse the given paths in order, folding each parsed file into
the accumulated merged configuration; fail fast on the first unreadable or
unparsable file. -/
def loadFilesAux (fs : FS) : List String → MergedConfig →
    Except ConfigError MergedConfig
  | [], acc => Except.ok acc
  | p :: rest, acc =>
    match fs.read p with
    | none => Except.error (ConfigError.readError p)
    | some content =>
      match parseFile content with
      | Except.error e => Except.error e
      | Except.ok pf => loadFilesAux fs rest (mergeFile acc pf)

/-- Modelled from the spec: `load_config_from_files` of `dwave.cloud.config`
(not in the source tree): with no explicit file list, load the auto-detected
candidates; with an explicit list, every named path must be readable. -/
def load_config_from_files (fs : FS) (filenames : Option (List String)) :
    Except ConfigError MergedConfig :=
  match filenames with
  | none => loadFilesAux fs fs.autodetected []
  | some paths => loadFilesAux fs paths []

/-- The `config_file` argument of `load_config`: not given, explicitly
False, explicitly True, a single path string, or a sequence of paths. -/
inductive ConfigFileArg where
  | noval
  | skipLoad
  | autodetect
  | onePath (p : String)
  | manyPaths (ps : List String)

/-- Environment lookup that treats a variable set to the empty string as
unset (Python truthiness, kept for DWAVE_CONFIG_FILE per the design note
that empty-string-means-unset is distinct from explicit False). -/
def envNonEmpty (env : Env) (k : String) : Option String :=
  match alookup env k with
  | some v => if v = "" then none else some v
  | none => none

/-- Modelled from the spec: which file list `load_config` passes to
`load_config_from_files`.  `none` means skip file loading entirely
(config_file=False); `some none` means auto-detection; `some (some ps)`
means explicit paths.  The DWAVE_CONFIG_FILE environment path is consulted
only when config_file was not given a concrete value, and is ignored when
config_file is True. -/
def resolveFileNames (env : Env) : ConfigFileArg → Option (Option (List String))
  | ConfigFileArg.skipLoad => none
  | ConfigFileArg.autodetect => some none
  | ConfigFileArg.onePath p => if p = "" then some none else some (some [p])
  | ConfigFileArg.manyPaths ps => if ps = [] then some none else some (some ps)
  | ConfigFileArg.noval =>
    match envNonEmpty env "DWAVE_CONFIG_FILE" with
    | some p => some (some [p])
    | none => some none

/-- Modelled from the spec: the profile name requested for resolution — the
explicit `profile` argument, else the DWAVE_PROFILE environment variable. -/
def profileNameOf (env : Env) (profile : Option String) : Option String :=
  match profile with
  | some p => some p
  | none => alookup env "DWAVE_PROFILE"

/-- The explicit keyword arguments of `load_config` other than
`config_file` and `profile`. -/
structure ExplicitArgs where
  client : Option String := none
  endpoint : Option String := none
  token : Option String := none
  solver : Option String := none
  proxy : Option String := none
deriving DecidableEq

/-- Modelled from the spec: the flat effective configuration handed to the
remote API client, one field per recognized option key plus the pass-through
of non-recognized profile keys. -/
structure EffectiveConfig where
  endpoint : Option String
  token : Option String
  client : Option String
  solver : Option String
  proxy : Option String
  profile : Option String
  extra : List (String × String)
deriving DecidableEq

/-- The closed set of recognized option keys. -/
def recognizedKeys : List String :=
  ["endpoint", "token", "client", "solver", "proxy", "profile"]

/-- Modelled from the spec: one key of the precedence cascade — explicit
argument if not None, else environment variable if set, else the selected
profile's value if present, else None. -/
def resolveKey (explicit envVal : Option String) (sec : KVMap) (key : String) :
    Option String :=
  match explicit with
  | some v => some v
  | none =>
    match envVal with
    | some v => some v
    | none => alookup sec key

/-- Modelled from the spec: build the EffectiveConfig from the explicit
arguments, the environment and the selected profile section. -/
def buildEffective (env : Env) (profile : Option String) (args : ExplicitArgs)
    (sec : KVMap) : EffectiveConfig where
  endpoint := resolveKey args.endpoint (alookup env "DWAVE_API_ENDPOINT") sec "endpoint"
  token := resolveKey args.token (alookup env "DWAVE_API_TOKEN") sec "token"
  client := resolveKey args.client (alookup env "DWAVE_API_CLIENT") sec "client"
  solver := resolveKey args.solver (alookup env "DWAVE_API_SOLVER") sec "solver"
  proxy := resolveKey args.proxy (alookup env "DWAVE_API_PROXY") sec "proxy"
  profile := resolveKey profile (alookup env "DWAVE_PROFILE") sec "profile"
  extra := sec.filter (fun kv => !(decide (kv.1 ∈ recognizedKeys)))

/-- Modelled from the spec: determine the selected profile section.  When
config_file is False, file loading and profile selection are skipped
entirely and the empty section is used, the profile name being ignored
(behaviour fixed by tests/test_config.py test_config_load_skip_configfiles);
otherwise files are loaded, merged and the profile selected. -/
def loadSection (fs : FS) (env : Env) (cf : ConfigFileArg)
    (profileName : Option String) : Except ConfigError KVMap :=
  match resolveFileNames env cf with
  | none => Except.ok []
  | some fns =>
    match load_config_from_files fs fns with
    | Except.error e => Except.error e
    | Except.ok merged => selectProfile merged profileName

/-- Modelled from the spec: `load_config` of `dwave.cloud.config` (not in
the source tree), the ConfigResolver orchestrator. -/
def load_config (fs : FS) (env : Env) (cf : ConfigFileArg)
    (profile : Option String) (args : ExplicitArgs) :
    Except ConfigError EffectiveConfig :=
  match loadSection fs env cf (profileNameOf env profile) with
  | Except.error e => Except.error e
  | Except.ok sec => Except.ok (buildEffective env profile args sec)

/-- Is the computation a success? -/
def exceptOk {ε α : Type} : Except ε α → Bool
  | Except.ok _ => true
  | Except.error _ => false

/-- Read one recognized field of the EffectiveConfig by key name. -/
def effGet (e : EffectiveConfig) (k : String) : Option String :=
  if k = "endpoint" then e.endpoint
  else if k = "token" then e.token
  else if k = "client" then e.client
  else if k = "solver" then e.solver
  else if k = "proxy" then e.proxy
  else if k = "profile" then e.profile
  else none

/-- Read one recognized field from the result of a resolution. -/
def effField (r : Except ConfigError EffectiveConfig) (k : String) :
    Option String :=
  match r with
  | Except.ok e => effGet e k
  | Except.error _ => none

/-- The explicit argument supplied for a recognized key. -/
def argGet (profile : Option String) (a : ExplicitArgs) (k : String) :
    Option String :=
  if k = "endpoint" then a.endpoint
  else if k = "token" then a.token
  else if k = "client" then a.client
  else if k = "solver" then a.solver
  else if k = "proxy" then a.proxy
  else if k = "profile" then profile
  else none

/-- The environment variable backing a recognized key. -/
def envVarFor (k : String) : String :=
  if k = "endpoint" then "DWAVE_API_ENDPOINT"
  else if k = "token" then "DWAVE_API_TOKEN"
  else if k = "client" then "DWAVE_API_CLIENT"
  else if k = "solver" then "DWAVE_API_SOLVER"
  else if k = "proxy" then "DWAVE_API_PROXY"
  else "DWAVE_PROFILE"

/-- Character-level prefix test, the meaning of Python's str.startswith. -/
def strStartsWith (s pre : String) : Bool :=
  List.isPrefixOf pre.toList s.toList

/-- A remote solver as consulted by the admission predicate: only its id is
inspected. -/
structure Solver where
  id : String

/-- Embedded from src/dwave/cloud/sw.py, `Client.is_solver_handled`: a falsy
solver argument (modelled as `none`) is rejected, otherwise the solver is
handled exactly when its id starts with the prefix string `c4-sw_`. -/
def is_solver_handled (solver : Option Solver) : Bool :=
  match solver with
  | none => false
  | some s => strStartsWith s.id "c4-sw_"

/-! Concrete fixtures mirroring the scenarios of tests/test_config.py, used
by the witness theorems below. -/

/-- A file system with no configuration files at all. -/
def emptyFS : FS := FS.mk [] (fun _ => none)

/-- The two parsed files of test_config_load_multiple_autodetected_configfiles:
a system-level file and a user-level file both defining section alpha. -/
def demoFiles : List ParsedFile :=
  [ [("alpha", [("endpoint", "alpha"), ("solver", "DW_2000Q_1")])],
    [("alpha", [("solver", "DW_2000Q_2")]), ("beta", [("endpoint", "beta")])] ]

/-- A file system for the explicit-argument precedence scenario of
test_config_load_configfile_env_profile_env_key_arg. -/
def fsC2 : FS :=
  FS.mk [] (fun p => if p = "myfile" then some "[alpha]\ntoken = file-token" else none)

/-- Environment of the precedence scenario: config file, profile and an API
token are all set in the environment. -/
def envC2 : Env :=
  [("DWAVE_CONFIG_FILE", "myfile"), ("DWAVE_PROFILE", "alpha"),
    ("DWAVE_API_TOKEN", "E")]

/-- The section resolved from fsC2 for profile alpha. -/
def secC2 : KVMap := [("token", "file-token")]

/-- The merged configuration of test_config_load__profile_first_section,
extended with a defaults section as in the spec's testable property. -/
def m4Demo : MergedConfig :=
  [("defaults", [("client", "qpu")]), ("first", [("solver", "DW_2000Q_1")])]

/-- The defaults-only merged configuration of
test_config_load__profile_from_defaults. -/
def m5Demo : MergedConfig := [("defaults", [("solver", "DW_2000Q_1")])]

/-- A defaults-only merged configuration whose defaults section names a
profile that cannot exist. -/
def m5Cex : MergedConfig := [("defaults", [("profile", "missing")])]

/-- File system of test_config_load_configfile_arg_profile_default_nonexisting:
the defaults section names a non-existing profile. -/
def fsC6 : FS :=
  FS.mk []
    (fun p =>
      if p = "myfile" then
        some "[defaults]\nprofile = nonexisting\n\n[some]\nsolver = DW_2000Q_1"
      else none)

/-- The merged configuration loaded from fsC6. -/
def mC6 : MergedConfig :=
  [("defaults", [("profile", "nonexisting")]), ("some", [("solver", "DW_2000Q_1")])]

/-- The duplicate-section file body of
test_config_load_from_file__invalid_format__duplicate_sections. -/
def dupSectionText : String := "[section]\nkey = val\n[section]\nkey = val"

/-- One file containing a defaults section and one profile section. -/
def demoDefaultsFiles : List ParsedFile :=
  [ [("defaults", [("client", "qpu")]), ("alpha", [("endpoint", "E")])] ]

/-! ## Lookup and merge lemmas -/

@[simp]
theorem fb_some (v : String) (b : Option String) : fb (some v) b = some v := rfl

@[simp]
theorem fb_none (b : Option String) : fb none b = b := rfl

theorem alookup_none_iff {α : Type} (l : List (String × α)) (k : String) :
    alookup l k = none ↔ ∀ e ∈ l, e.1 ≠ k := by
  induction l with
  | nil => simp [alookup]
  | cons e rest ih =>
    obtain ⟨k', v⟩ := e
    by_cases h : k' = k
    · subst h; simp [alookup]
    · simp [alookup, h, ih]

theorem alookup_none_of_not_mem {α : Type} {l : List (String × α)} {k : String}
    (h : k ∉ l.map Prod.fst) : alookup l k = none := by
  rw [alookup_none_iff]
  intro e he heq
  exact h (heq ▸ List.mem_map_of_mem Prod.fst he)

theorem alookup_setKey (m : KVMap) (k v k' : String) :
    alookup (setKey m k v) k' = if k = k' then some v else alookup m k' := by
  induction m with
  | nil => simp [setKey, alookup]
  | cons e rest ih =>
    obtain ⟨k0, v0⟩ := e
    by_cases h : k0 = k
    · subst h
      by_cases h2 : k0 = k'
      · subst h2; simp [setKey, alookup]
      · simp [setKey, alookup, h2]
    · by_cases h2 : k0 = k'
      · subst h2
        simp [setKey, alookup, h, Ne.symm h]
      · simp [setKey, alookup, h, h2, ih]

theorem alookup_mergeKV (base new : KVMap) (k : String)
    (hnd : (new.map Prod.fst).Nodup) :
    alookup (mergeKV base new) k = fb (alookup new k) (alookup base k) := by
  induction new generalizing base with
  | nil => simp [mergeKV, alookup]
  | cons e rest ih =>
    obtain ⟨k0, v0⟩ := e
    rw [List.map_cons, List.nodup_cons] at hnd
    rw [show mergeKV base ((k0, v0) :: rest) = mergeKV (setKey base k0 v0) rest from rfl]
    rw [ih _ hnd.2]
    by_cases h : k0 = k
    · subst h
      rw [alookup_none_of_not_mem hnd.1]
      simp [alookup, alookup_setKey]
    · cases hrk : alookup rest k with
      | none => simp [alookup, h, hrk, alookup_setKey]
      | some v => simp [alookup, h, hrk]

theorem lookupSK_cons (n : String) (sec : KVMap) (rest : MergedConfig)
    (s k : String) :
    lookupSK ((n, sec) :: rest) s k =
      if n = s then alookup sec k else lookupSK rest s k := by
  by_cases h : n = s <;> simp [lookupSK, alookup, h]

theorem lookupSK_mergeSection (m : MergedConfig) (n : String) (sec : KVMap)
    (s k : String) (hsec : (sec.map Prod.fst).Nodup) :
    lookupSK (mergeSection m n sec) s k =
      if n = s then fb (alookup sec k) (lookupSK m s k) else lookupSK m s k := by
  induction m with
  | nil =>
    by_cases h : n = s
    · subst h
      simp only [mergeSection, lookupSK_cons, if_pos rfl]
      cases alookup sec k <;> simp [lookupSK, alookup]
    · simp [mergeSection, lookupSK_cons, h]
  | cons e rest ih =>
    obtain ⟨n0, sec0⟩ := e
    by_cases h0 : n0 = n
    · subst h0
      rw [show mergeSection ((n0, sec0) :: rest) n0 sec =
            (n0, mergeKV sec0 sec) :: rest from by simp [mergeSection]]
      rw [lookupSK_cons, lookupSK_cons]
      by_cases h1 : n0 = s
      · subst h1
        simp [alookup_mergeKV _ _ _ hsec]
      · simp [h1]
    · rw [show mergeSection ((n0, sec0) :: rest) n sec =
            (n0, sec0) :: mergeSection rest n sec from by simp [mergeSection, h0]]
      rw [lookupSK_cons, lookupSK_cons]
      by_cases h1 : n0 = s
      · subst h1
        have hne : ¬ n = n0 := fun hh => h0 hh.symm
        simp [hne]
      · simp [h1, ih]

theorem WFFile_cons {n : String} {sec : KVMap} {rest : ParsedFile}
    (h : WFFile ((n, sec) :: rest)) :
    (sec.map Prod.fst).Nodup ∧ n ∉ rest.map Prod.fst ∧ WFFile rest := by
  obtain ⟨h1, h2⟩ := h
  rw [List.map_cons, List.nodup_cons] at h1
  refine ⟨h2 sec (by simp), h1.1, h1.2, ?_⟩
  intro s2 hs2
  exact h2 s2 (by simp [hs2])

theorem lookupSK_mergeFile (m : MergedConfig) (f : ParsedFile) (s k : String)
    (hwf : WFFile f) :
    lookupSK (mergeFile m f) s k = fb (lookupSK f s k) (lookupSK m s k) := by
  induction f generalizing m with
  | nil => simp [mergeFile, lookupSK, alookup]
  | cons e rest ih =>
    obtain ⟨n, sec⟩ := e
    obtain ⟨hsec, hn, hwf'⟩ := WFFile_cons hwf
    rw [show mergeFile m ((n, sec) :: rest) = mergeFile (mergeSection m n sec) rest from rfl]
    rw [ih _ hwf']
    rw [lookupSK_mergeSection _ _ _ _ _ hsec]
    rw [lookupSK_cons]
    by_cases h : n = s
    · subst h
      have hre : lookupSK rest n k = none := by
        simp [lookupSK, alookup_none_of_not_mem hn]
      rw [hre]
      simp
    · simp [h]

theorem lookupSK_foldl_mergeFile (files : List ParsedFile) (m : MergedConfig)
    (s k : String) (hwf : ∀ f ∈ files, WFFile f) :
    lookupSK (files.foldl mergeFile m) s k =
      files.foldl (fun acc f => fb (lookupSK f s k) acc) (lookupSK m s k) := by
  induction files generalizing m with
  | nil => rfl
  | cons f rest ih =>
    rw [List.foldl_cons, List.foldl_cons]
    rw [ih _ (fun g hg => hwf g (by simp [hg]))]
    rw [lookupSK_mergeFile _ _ _ _ (hwf f (by simp))]

theorem alookup_mergeSection_isSome (m : MergedConfig) (n : String)
    (sec : KVMap) (s : String) :
    (alookup (mergeSection m n sec) s).isSome =
      (decide (n = s) || (alookup m s).isSome) := by
  induction m with
  | nil => by_cases h : n = s <;> simp [mergeSection, alookup, h]
  | cons e rest ih =>
    obtain ⟨n0, sec0⟩ := e
    by_cases h0 : n0 = n
    · subst h0
      by_cases h1 : n0 = s <;>
        simp [mergeSection, alookup, h1]
    · rw [show mergeSection ((n0, sec0) :: rest) n sec =
            (n0, sec0) :: mergeSection rest n sec from by simp [mergeSection, h0]]
      by_cases h1 : n0 = s
      · subst h1
        have : ¬ n = n0 := fun hh => h0 hh.symm
        simp [alookup, this]
      · simp [alookup, h1, ih]

theorem alookup_mergeFile_isSome (m : MergedConfig) (f : ParsedFile)
    (s : String) :
    (alookup (mergeFile m f) s).isSome =
      ((alookup f s).isSome || (alookup m s).isSome) := by
  induction f generalizing m with
  | nil => simp [mergeFile, alookup]
  | cons e rest ih =>
    obtain ⟨n, sec⟩ := e
    rw [show mergeFile m ((n, sec) :: rest) = mergeFile (mergeSection m n sec) rest from rfl]
    rw [ih]
    rw [alookup_mergeSection_isSome]
    by_cases h : n = s
    · subst h
      simp [alookup]
    · simp [alookup, h]

theorem alookup_foldl_mergeFile_isSome (files : List ParsedFile)
    (m : MergedConfig) (s : String) :
    (alookup (files.foldl mergeFile m) s).isSome =
      (files.any (fun f => (alookup f s).isSome) || (alookup m s).isSome) := by
  induction files generalizing m with
  | nil => simp
  | cons f rest ih =>
    rw [List.foldl_cons, ih, alookup_mergeFile_isSome]
    cases ha : (alookup f s).isSome <;> cases hm : (alookup m s).isSome <;>
      simp [List.any_cons, ha, hm]

/-! ## Filter, append and fallback lemmas -/

theorem hasName_eq_false_iff {α : Type} (l : List (String × α)) (s : String) :
    hasName l s = false ↔ ∀ e ∈ l, e.1 ≠ s := by
  simp [hasName]

theorem alookup_append (l1 l2 : KVMap) (k : String) :
    alookup (l1 ++ l2) k = fb (alookup l1 k) (alookup l2 k) := by
  induction l1 with
  | nil => simp [alookup]
  | cons e rest ih =>
    obtain ⟨k0, v0⟩ := e
    by_cases h : k0 = k <;> simp [alookup, h, ih]

theorem alookup_filter {α : Type} (l : List (String × α))
    (p : String × α → Bool) (k : String) (hp : ∀ v, p (k, v) = true) :
    alookup (l.filter p) k = alookup l k := by
  induction l with
  | nil => simp [alookup]
  | cons e rest ih =>
    obtain ⟨k0, v0⟩ := e
    by_cases h : k0 = k
    · subst h
      rw [List.filter_cons, hp v0]
      simp [alookup]
    · rw [List.filter_cons]
      cases hpk : p (k0, v0) <;> simp [alookup, h, ih]

theorem hasName_false_of_alookup_none {α : Type} {l : List (String × α)}
    {k : String} (h : alookup l k = none) : hasName l k = false := by
  rw [hasName_eq_false_iff]
  exact (alookup_none_iff l k).mp h

theorem alookup_withDefaults (d sec : KVMap) (k : String) :
    alookup (withDefaults d sec) k = fb (alookup sec k) (alookup d k) := by
  unfold withDefaults
  rw [alookup_append]
  cases hsk : alookup sec k with
  | some v => simp
  | none =>
    simp only [fb_none]
    exact alookup_filter d _ k (fun v => by
      simp [hasName_false_of_alookup_none hsk])

theorem alookup_nonDefaults {m : MergedConfig} {s : String}
    (h : s ≠ "defaults") : alookup (nonDefaultsOf m) s = alookup m s :=
  alookup_filter m _ s (fun v => by simp [h])

theorem WFFile_nonDefaults {f : ParsedFile} (h : WFFile f) :
    WFFile (nonDefaultsOf f) := by
  constructor
  · exact h.1.sublist ((List.filter_sublist f).map Prod.fst)
  · intro sec hs
    obtain ⟨e, he, heq⟩ := List.mem_map.mp hs
    exact h.2 sec (heq ▸ List.mem_map_of_mem Prod.snd (List.mem_of_mem_filter he))

/-! ## Parser lemmas -/

theorem stepLine_ok_inv (st st' : ParsedFile × Option (String × KVMap))
    (line : List Char) (h : stepLine st line = Except.ok st')
    (hinv : ((flushCur st).map Prod.fst).Nodup) :
    ((flushCur st').map Prod.fst).Nodup := by
  unfold stepLine at h
  split at h
  · cases h; exact hinv
  · split at h
    · cases h; exact hinv
    · split at h
      · split at h
        · split at h
          · exact Except.noConfusion h
          · cases h
            rename_i hdup
            simp only [Bool.not_eq_true, hasName_eq_false_iff] at hdup
            simp only [flushCur, List.map_append, List.map_cons, List.map_nil]
            rw [List.nodup_append]
            refine ⟨hinv, List.nodup_singleton _, ?_⟩
            intro x hx hx1
            rw [List.mem_singleton] at hx1
            subst hx1
            obtain ⟨e, he, heq⟩ := List.mem_map.mp hx
            exact hdup e he heq
        · exact Except.noConfusion h
      · split at h
        · exact Except.noConfusion h
        · split at h
          · exact Except.noConfusion h
          · split at h
            · exact Except.noConfusion h
            · cases h
              rename_i hcur hdupk
              simp only [flushCur, List.map_append, List.map_cons, List.map_nil]
              simp only [flushCur, hcur, List.map_append, List.map_cons,
                List.map_nil] at hinv
              exact hinv

theorem stepLine_ok_names (st st' : ParsedFile × Option (String × KVMap))
    (line : List Char) (h : stepLine st line = Except.ok st') :
    (flushCur st').map Prod.fst =
      (flushCur st).map Prod.fst ++ (headerName? line).toList := by
  unfold stepLine at h
  cases ht : trimChars line with
  | nil =>
    rw [ht] at h
    cases h
    simp [headerName?, ht]
  | cons c cs =>
    simp only [ht] at h
    by_cases hc : c = '#' ∨ c = ';'
    · rw [if_pos hc] at h
      cases h
      simp [headerName?, ht, hc]
    · rw [if_neg hc] at h
      by_cases hbr : c = '['
      · rw [if_pos hbr] at h
        by_cases hlast : cs.getLast? = some ']'
        · rw [if_pos hlast] at h
          by_cases hdup :
              hasName (flushCur st) (String.mk (trimChars cs.dropLast)) = true
          · rw [if_pos hdup] at h
            exact Except.noConfusion h
          · rw [if_neg hdup] at h
            cases h
            simp [headerName?, ht, hc, hbr, hlast, flushCur]
        · rw [if_neg hlast] at h
          exact Except.noConfusion h
      · rw [if_neg hbr] at h
        cases hsp : splitAtDelim (c :: cs) with
        | none =>
          simp only [hsp] at h
          exact Except.noConfusion h
        | some pp =>
          obtain ⟨pre, post⟩ := pp
          simp only [hsp] at h
          cases hcur : st.2 with
          | none =>
            simp only [hcur] at h
            exact Except.noConfusion h
          | some nc =>
            obtain ⟨n, kvs⟩ := nc
            simp only [hcur] at h
            by_cases hdupk : hasName kvs (String.mk (trimChars pre)) = true
            · rw [if_pos hdupk] at h
              exact Except.noConfusion h
            · rw [if_neg hdupk] at h
              cases h
              simp [headerName?, ht, hc, hbr, flushCur, hcur]

theorem parseLinesAux_ok_names (lines : List (List Char))
    (st : ParsedFile × Option (String × KVMap)) (pf : ParsedFile)
    (h : parseLinesAux lines st = Except.ok pf) :
    pf.map Prod.fst =
      (flushCur st).map Prod.fst ++ lines.filterMap headerName? := by
  induction lines generalizing st with
  | nil =>
    unfold parseLinesAux at h
    cases h
    simp
  | cons line rest ih =>
    unfold parseLinesAux at h
    cases hs : stepLine st line with
    | error e => rw [hs] at h; exact Except.noConfusion h
    | ok st' =>
      rw [hs] at h
      rw [ih st' h, stepLine_ok_names st st' line hs]
      rw [List.filterMap_cons]
      cases headerName? line <;> simp

theorem stepLine_error_parse (st : ParsedFile × Option (String × KVMap))
    (line : List Char) (e : ConfigError)
    (h : stepLine st line = Except.error e) :
    ∃ msg, e = ConfigError.parseError msg := by
  unfold stepLine at h
  split at h
  · exact Except.noConfusion h
  · split at h
    · exact Except.noConfusion h
    · split at h
      · split at h
        · split at h
          · exact ⟨_, (Except.error.inj h).symm⟩
          · exact Except.noConfusion h
        · exact ⟨_, (Except.error.inj h).symm⟩
      · split at h
        · exact ⟨_, (Except.error.inj h).symm⟩
        · split at h
          · exact ⟨_, (Except.error.inj h).symm⟩
          · split at h
            · exact ⟨_, (Except.error.inj h).symm⟩
            · exact Except.noConfusion h

theorem parseLinesAux_ok_nodup (lines : List (List Char))
    (st : ParsedFile × Option (String × KVMap)) (pf : ParsedFile)
    (h : parseLinesAux lines st = Except.ok pf)
    (hinv : ((flushCur st).map Prod.fst).Nodup) :
    (pf.map Prod.fst).Nodup := by
  induction lines generalizing st with
  | nil =>
    unfold parseLinesAux at h
    cases h
    exact hinv
  | cons line rest ih =>
    unfold parseLinesAux at h
    cases hs : stepLine st line with
    | error e => rw [hs] at h; exact Except.noConfusion h
    | ok st' =>
      rw [hs] at h
      exact ih st' h (stepLine_ok_inv st st' line hs hinv)

theorem parseLinesAux_error_parse (lines : List (List Char))
    (st : ParsedFile × Option (String × KVMap)) (e : ConfigError)
    (h : parseLinesAux lines st = Except.error e) :
    ∃ msg, e = ConfigError.parseError msg := by
  induction lines generalizing st with
  | nil =>
    unfold parseLinesAux at h
    exact Except.noConfusion h
  | cons line rest ih =>
    unfold parseLinesAux at h
    cases hs : stepLine st line with
    | error e2 =>
      rw [hs] at h
      cases h
      exact stepLine_error_parse st line _ hs
    | ok st' =>
      rw [hs] at h
      exact ih st' h

theorem loadFilesAux_readError (fs : FS) (p : String) (rest : List String)
    (hp : fs.read p = none) :
    ∀ (pre : List String) (acc : MergedConfig),
      (∀ q ∈ pre, ∃ c f, fs.read q = some c ∧ parseFile c = Except.ok f) →
      loadFilesAux fs (pre ++ p :: rest) acc =
        Except.error (ConfigError.readError p) := by
  intro pre
  induction pre with
  | nil =>
    intro acc _
    simp [loadFilesAux, hp]
  | cons q pre' ih =>
    intro acc hq
    obtain ⟨c, f, hc, hf⟩ := hq q (by simp)
    simp only [List.cons_append, loadFilesAux, hc, hf]
    exact ih _ (fun r hr => hq r (by simp [hr]))

theorem foldl_fb_ext (files : List ParsedFile)
    (g1 g2 : ParsedFile → Option String) (h : ∀ f ∈ files, g1 f = g2 f) :
    ∀ init : Option String,
      files.foldl (fun acc f => fb (g1 f) acc) init =
        files.foldl (fun acc f => fb (g2 f) acc) init := by
  induction files with
  | nil => intro init; rfl
  | cons f rest ih =>
    intro init
    rw [List.foldl_cons, List.foldl_cons, h f (by simp)]
    exact ih (fun g hg => h g (by simp [hg])) _

theorem isPrefixOf_iff_exists_append (pre l : List Char) :
    List.isPrefixOf pre l = true ↔ ∃ t, l = pre ++ t := by
  induction pre generalizing l with
  | nil => simp [List.isPrefixOf]
  | cons a as ih =>
    cases l with
    | nil => simp [List.isPrefixOf]
    | cons b bs =>
      simp only [List.isPrefixOf, Bool.and_eq_true, beq_iff_eq, ih,
        List.cons_append, List.cons.injEq]
      constructor
      · rintro ⟨rfl, t, rfl⟩
        exact ⟨t, rfl, rfl⟩
      · rintro ⟨t, rfl, rfl⟩
        exact ⟨rfl, t, rfl⟩

/-! ## Claim theorems -/

/-- Claim C1: for every ordered list of well-formed parsed configuration
files, the merged configuration maps each (section, key) pair to the value
from the last file in the list that defined it, per key independently, and a
section is present in the merge exactly when some file defines it (sections
of later files are added). -/
theorem merge_last_file_wins (files : List ParsedFile)
    (hwf : ∀ f ∈ files, WFFile f) (s k : String) :
    lookupSK (mergeConfigs files) s k = lastVal files s k ∧
    (alookup (mergeConfigs files) s).isSome =
      files.any (fun f => (alookup f s).isSome) := by
  constructor
  · have h := lookupSK_foldl_mergeFile files [] s k hwf
    simpa [mergeConfigs, lastVal, lookupSK, alookup] using h
  · have h := alookup_foldl_mergeFile_isSome files [] s
    simpa [mergeConfigs, alookup] using h

/-- Witness for C1 at the two configuration files of
test_config_load_multiple_autodetected_configfiles. -/
theorem merge_last_file_wins_witness :
    lookupSK (mergeConfigs demoFiles) "alpha" "solver" =
      lastVal demoFiles "alpha" "solver" ∧
    (alookup (mergeConfigs demoFiles) "alpha").isSome =
      demoFiles.any (fun f => (alookup f "alpha").isSome) :=
  merge_last_file_wins demoFiles (by decide) "alpha" "solver"

/-- Claim C2: for every recognized option key, the resolved EffectiveConfig
value is the explicit argument if not None, else the corresponding
environment variable value if set, else the selected profile's value for
that key if present, else None. -/
theorem explicit_env_file_precedence (fs : FS) (env : Env)
    (cf : ConfigFileArg) (profile : Option String) (args : ExplicitArgs)
    (sec : KVMap) (k : String) (hk : k ∈ recognizedKeys)
    (hsec : loadSection fs env cf (profileNameOf env profile) = Except.ok sec) :
    effField (load_config fs env cf profile args) k =
      match argGet profile args k with
      | some v => some v
      | none =>
        match alookup env (envVarFor k) with
        | some v => some v
        | none => alookup sec k := by
  have hl : load_config fs env cf profile args =
      Except.ok (buildEffective env profile args sec) := by
    simp [load_config, hsec]
  rw [hl]
  simp only [recognizedKeys, List.mem_cons, List.mem_singleton,
    List.not_mem_nil, or_false] at hk
  rcases hk with rfl | rfl | rfl | rfl | rfl | rfl <;>
    simp [effField, effGet, buildEffective, argGet, envVarFor, resolveKey]

/-- Witness for C2 in the scenario of
test_config_load_configfile_env_profile_env_key_arg: the explicit token T
wins over the environment token E and the file token. -/
theorem explicit_env_file_precedence_witness :
    effField (load_config fsC2 envC2 ConfigFileArg.noval none
      (ExplicitArgs.mk none none (some "T") none none)) "token" = some "T" :=
  explicit_env_file_precedence fsC2 envC2 ConfigFileArg.noval none
    (ExplicitArgs.mk none none (some "T") none none) secC2 "token"
    (by simp [recognizedKeys]) rfl

/-- Claim C3 (amended): when a profile name is specified by argument or
environment and files are loaded, but no section of that name exists in the
merged configuration — including when the merge is empty because
auto-detection found no file — resolution fails with ProfileNotFoundError;
when file loading is explicitly skipped with config_file=False, the profile
name is ignored and resolution succeeds. -/
theorem profile_not_found_on_missing_name :
    (∀ (fs : FS) (env : Env) (cf : ConfigFileArg) (profile : Option String)
        (args : ExplicitArgs) (fns : Option (List String))
        (merged : MergedConfig) (name : String),
      profileNameOf env profile = some name →
      resolveFileNames env cf = some fns →
      load_config_from_files fs fns = Except.ok merged →
      alookup (nonDefaultsOf merged) name = none →
      load_config fs env cf profile args =
        Except.error (ConfigError.profileNotFound name)) ∧
    (∀ (fs : FS) (env : Env) (profile : Option String) (args : ExplicitArgs),
      exceptOk (load_config fs env ConfigFileArg.skipLoad profile args) = true) := by
  constructor
  · intro fs env cf profile args fns merged name h1 h2 h3 h4
    simp [load_config, loadSection, h1, h2, h3, selectProfile, h4]
  · intro fs env profile args
    rfl

/-- Witness for C3: auto-detection finding no file combined with a requested
profile name fails with ProfileNotFoundError, while config_file=False with
the same requested name succeeds. -/
theorem profile_not_found_on_missing_name_witness :
    load_config emptyFS [] ConfigFileArg.autodetect (some "nonexisting")
        (ExplicitArgs.mk none none none none none) =
      Except.error (ConfigError.profileNotFound "nonexisting") ∧
    exceptOk (load_config emptyFS [] ConfigFileArg.skipLoad
        (some "nonexisting") (ExplicitArgs.mk none none none none none)) = true :=
  ⟨profile_not_found_on_missing_name.1 emptyFS [] ConfigFileArg.autodetect
      (some "nonexisting") (ExplicitArgs.mk none none none none none)
      none [] "nonexisting" rfl rfl rfl rfl,
    profile_not_found_on_missing_name.2 emptyFS [] (some "nonexisting")
      (ExplicitArgs.mk none none none none none)⟩

/-- Counterexample to C3 as stated: with file loading skipped
(config_file=False) and the requested profile name alpha missing from the
(empty) merged configuration, resolution succeeds instead of failing with
ProfileNotFoundError, as fixed by test_config_load_skip_configfiles. -/
theorem skip_configfiles_profile_ignored_cex :
    load_config emptyFS [] ConfigFileArg.skipLoad (some "alpha")
        (ExplicitArgs.mk none none none none none) =
      Except.ok (EffectiveConfig.mk none none none none none (some "alpha") []) ∧
    load_config emptyFS [] ConfigFileArg.skipLoad (some "alpha")
        (ExplicitArgs.mk none none none none none) ≠
      Except.error (ConfigError.profileNotFound "alpha") := by
  refine ⟨rfl, fun h => ?_⟩
  exact Except.noConfusion ((rfl :
    load_config emptyFS [] ConfigFileArg.skipLoad (some "alpha")
        (ExplicitArgs.mk none none none none none) =
      Except.ok (EffectiveConfig.mk none none none none none (some "alpha") [])
    ).symm.trans h)

/-- Claim C4: with no profile name from argument or environment and no
profile key in the defaults section, the first non-defaults section in
encounter order is selected (filled from defaults), and that section is
never the defaults section. -/
theorem first_nondefaults_section_selected (m : MergedConfig) (n : String)
    (sec : KVMap) (rest : MergedConfig)
    (hnd : nonDefaultsOf m = (n, sec) :: rest)
    (hdp : alookup (defaultsOf m) "profile" = none) :
    selectProfile m none = Except.ok (withDefaults (defaultsOf m) sec) ∧
    n ≠ "defaults" := by
  constructor
  · simp [selectProfile, hdp, hnd]
  · have hmem : (n, sec) ∈ nonDefaultsOf m := by rw [hnd]; simp
    have hp := List.of_mem_filter hmem
    simpa using hp

/-- Witness for C4 in the scenario of test_config_load__profile_first_section
extended with a defaults section: section first is selected, not defaults. -/
theorem first_nondefaults_section_selected_witness :
    selectProfile m4Demo none =
      Except.ok (withDefaults (defaultsOf m4Demo) [("solver", "DW_2000Q_1")]) ∧
    "first" ≠ "defaults" :=
  first_nondefaults_section_selected m4Demo "first"
    [("solver", "DW_2000Q_1")] [] rfl rfl

/-- Claim C5 (amended): a defaults-only merged configuration with no profile
name given by argument or environment promotes the defaults section itself
to the selected profile, provided the defaults section does not set the
profile key; if it does set profile, that name cannot exist and selection
fails with ProfileNotFoundError instead. -/
theorem defaults_promoted_to_profile (m : MergedConfig) (d : KVMap)
    (hnd : nonDefaultsOf m = [])
    (hdef : alookup m "defaults" = some d) :
    (alookup d "profile" = none → selectProfile m none = Except.ok d) ∧
    (∀ name, alookup d "profile" = some name →
      selectProfile m none = Except.error (ConfigError.profileNotFound name)) := by
  have hd : defaultsOf m = d := by simp [defaultsOf, hdef]
  constructor
  · intro hp
    simp [selectProfile, hd, hp, hnd]
  · intro name hp
    simp [selectProfile, hd, hp, hnd, alookup]

/-- Witness for C5 in the scenario of test_config_load__profile_from_defaults:
the defaults-only configuration resolves to the defaults section itself. -/
theorem defaults_promoted_to_profile_witness :
    selectProfile m5Demo none = Except.ok [("solver", "DW_2000Q_1")] :=
  (defaults_promoted_to_profile m5Demo [("solver", "DW_2000Q_1")] rfl rfl).1 rfl

/-- Counterexample to C5 as stated: a defaults-only configuration whose
defaults section sets profile to a name that cannot exist makes selection
fail with ProfileNotFoundError instead of promoting the defaults section. -/
theorem defaults_only_profile_key_cex :
    selectProfile m5Cex none =
      Except.error (ConfigError.profileNotFound "missing") ∧
    selectProfile m5Cex none ≠ Except.ok (defaultsOf m5Cex) := by
  refine ⟨rfl, fun h => ?_⟩
  exact Except.noConfusion ((rfl : selectProfile m5Cex none =
    Except.error (ConfigError.profileNotFound "missing")).symm.trans h)

/-- Claim C6: when the defaults section sets the profile key to a name with
no matching section, resolution with no explicit or environment profile
fails with ProfileNotFoundError rather than falling back to the first
section. -/
theorem defaults_profile_nonexisting_fails (fs : FS) (env : Env)
    (cf : ConfigFileArg) (args : ExplicitArgs) (fns : Option (List String))
    (merged : MergedConfig) (name : String)
    (henv : alookup env "DWAVE_PROFILE" = none)
    (hfns : resolveFileNames env cf = some fns)
    (hload : load_config_from_files fs fns = Except.ok merged)
    (hdp : alookup (defaultsOf merged) "profile" = some name)
    (hne : alookup (nonDefaultsOf merged) name = none) :
    load_config fs env cf none args =
      Except.error (ConfigError.profileNotFound name) := by
  simp [load_config, loadSection, profileNameOf, henv, hfns, hload,
    selectProfile, hdp, hne]

/-- Witness for C6 in the scenario of
test_config_load_configfile_arg_profile_default_nonexisting. -/
theorem defaults_profile_nonexisting_fails_witness :
    load_config fsC6 [] (ConfigFileArg.onePath "myfile") none
        (ExplicitArgs.mk none none none none none) =
      Except.error (ConfigError.profileNotFound "nonexisting") :=
  defaults_profile_nonexisting_fails fsC6 [] (ConfigFileArg.onePath "myfile")
    (ExplicitArgs.mk none none none none none) (some ["myfile"]) mC6
    "nonexisting" rfl rfl rfl rfl rfl

/-- Claim C7: when config_file is True resolution always uses auto-detection,
ignoring any value of DWAVE_CONFIG_FILE (a path or the empty string); the
environment path is consulted only when config_file was not given a
concrete value. -/
theorem force_autodetect_ignores_env :
    (∀ env : Env, resolveFileNames env ConfigFileArg.autodetect = some none) ∧
    (∀ (fs : FS) (env : Env) (v : String) (profile : Option String)
        (args : ExplicitArgs),
      load_config fs (("DWAVE_CONFIG_FILE", v) :: env)
          ConfigFileArg.autodetect profile args =
        load_config fs env ConfigFileArg.autodetect profile args) ∧
    (∀ (env : Env) (v : String),
      resolveFileNames (("DWAVE_CONFIG_FILE", v) :: env) ConfigFileArg.noval =
        some (if v = "" then none else some [v])) := by
  refine ⟨fun env => rfl, fun fs env v profile args => ?_, fun env v => ?_⟩
  · simp [load_config, loadSection, resolveFileNames, profileNameOf,
      buildEffective, alookup]
  · by_cases hv : v = "" <;> simp [resolveFileNames, envNonEmpty, alookup, hv]

/-- Claim C8: every file content whose section names repeat fails with a
ParseError; every parse failure whatsoever is a ParseError (a grammar
violation is never silently skipped); a successful parse never contains a
repeated section name; an unreadable explicitly named path fails with
ReadError; and the two failure kinds are distinguishable. -/
theorem parse_and_read_errors :
    (∀ content : String, ¬ (headerNames content).Nodup →
      failsWithParseError (parseFile content) = true) ∧
    (∀ (content : String) (pf : ParsedFile),
      parseFile content = Except.ok pf → (pf.map Prod.fst).Nodup) ∧
    (∀ (content : String) (e : ConfigError),
      parseFile content = Except.error e →
      ∃ msg, e = ConfigError.parseError msg) ∧
    (∀ (fs : FS) (pre : List String) (p : String) (rest : List String),
      (∀ q ∈ pre, ∃ c f, fs.read q = some c ∧ parseFile c = Except.ok f) →
      fs.read p = none →
      load_config_from_files fs (some (pre ++ p :: rest)) =
        Except.error (ConfigError.readError p)) ∧
    (∀ (p msg : String), ConfigError.readError p ≠ ConfigError.parseError msg) := by
  refine ⟨?_, ?_, ?_, ?_, ?_⟩
  · intro content hdup
    cases hp : parseFile content with
    | ok pf =>
      exfalso
      apply hdup
      have hnames := parseLinesAux_ok_names _ _ _ hp
      have hnodup := parseLinesAux_ok_nodup _ _ _ hp (by simp [flushCur])
      rw [hnames] at hnodup
      simpa [headerNames, flushCur] using hnodup
    | error e =>
      obtain ⟨msg, rfl⟩ := parseLinesAux_error_parse _ _ _ hp
      simp [failsWithParseError, hp]
  · intro content pf h
    exact parseLinesAux_ok_nodup _ _ _ h (by simp [flushCur])
  · intro content e h
    exact parseLinesAux_error_parse _ _ _ h
  · intro fs pre p rest hpre hp
    exact loadFilesAux_readError fs p rest hp pre [] hpre
  · intro p msg h
    exact ConfigError.noConfusion h

/-- Witness for C8: the duplicate-section file body of
test_config_load_from_file__invalid_format__duplicate_sections fails with a
ParseError (specifically the duplicate-section message), and the
non-existing explicit path of test_invalid_filename_given fails with
ReadError. -/
theorem parse_and_read_errors_witness :
    failsWithParseError (parseFile dupSectionText) = true ∧
    parseFile dupSectionText =
      Except.error (ConfigError.parseError "duplicate section: section") ∧
    load_config_from_files emptyFS (some ["/path/to/non/existing/config"]) =
      Except.error (ConfigError.readError "/path/to/non/existing/config") ∧
    (([("section", [("key", "val")])] : ParsedFile).map Prod.fst).Nodup :=
  ⟨parse_and_read_errors.1 dupSectionText (by decide),
    rfl,
    parse_and_read_errors.2.2.2.1 emptyFS [] "/path/to/non/existing/config" []
      (by simp) rfl,
    parse_and_read_errors.2.1 "[section]\nkey = val"
      [("section", [("key", "val")])] rfl⟩

/-- Claim C9: a defaults section contained in any input file is retained as
a distinct section of the merge, its keys are not auto-merged into the
other sections, and it is the fallback source for every key absent from the
selected profile section. -/
theorem defaults_retained_and_fallback :
    (∀ files : List ParsedFile,
      files.any (fun f => (alookup f "defaults").isSome) = true →
      (alookup (mergeConfigs files) "defaults").isSome = true) ∧
    (∀ (files : List ParsedFile) (s k : String),
      (∀ f ∈ files, WFFile f) → s ≠ "defaults" →
      lookupSK (mergeConfigs (files.map nonDefaultsOf)) s k =
        lookupSK (mergeConfigs files) s k) ∧
    (∀ (m : MergedConfig) (name : String) (sec : KVMap),
      alookup (nonDefaultsOf m) name = some sec →
      selectProfile m (some name) =
        Except.ok (withDefaults (defaultsOf m) sec)) ∧
    (∀ (d sec : KVMap) (k : String),
      alookup (withDefaults d sec) k = fb (alookup sec k) (alookup d k)) := by
  refine ⟨?_, ?_, ?_, ?_⟩
  · intro files h
    rw [show mergeConfigs files = files.foldl mergeFile [] from rfl,
      alookup_foldl_mergeFile_isSome, h]
    rfl
  · intro files s k hwf hs
    have h1 := lookupSK_foldl_mergeFile (files.map nonDefaultsOf) [] s k
      (fun g hg => by
        obtain ⟨f, hf, rfl⟩ := List.mem_map.mp hg
        exact WFFile_nonDefaults (hwf f hf))
    have h2 := lookupSK_foldl_mergeFile files [] s k hwf
    rw [show mergeConfigs (files.map nonDefaultsOf) =
        (files.map nonDefaultsOf).foldl mergeFile [] from rfl, h1]
    rw [show mergeConfigs files = files.foldl mergeFile [] from rfl, h2]
    rw [List.foldl_map]
    exact foldl_fb_ext files _ _
      (fun f hf => by
        simp [lookupSK, alookup_nonDefaults hs]) _
  · intro m name sec h
    simp [selectProfile, h]
  · intro d sec k
    exact alookup_withDefaults d sec k

/-- Witness for C9 at a file containing a defaults section and one profile
section. -/
theorem defaults_retained_and_fallback_witness :
    (alookup (mergeConfigs demoDefaultsFiles) "defaults").isSome = true ∧
    lookupSK (mergeConfigs (demoDefaultsFiles.map nonDefaultsOf))
        "alpha" "endpoint" =
      lookupSK (mergeConfigs demoDefaultsFiles) "alpha" "endpoint" ∧
    selectProfile (mergeConfigs demoDefaultsFiles) (some "alpha") =
      Except.ok (withDefaults (defaultsOf (mergeConfigs demoDefaultsFiles))
        [("endpoint", "E")]) ∧
    alookup (withDefaults [("client", "qpu")] [("endpoint", "E")]) "client" =
      fb (alookup [("endpoint", "E")] "client")
        (alookup [("client", "qpu")] "client") :=
  ⟨defaults_retained_and_fallback.1 demoDefaultsFiles (by decide),
    defaults_retained_and_fallback.2.1 demoDefaultsFiles "alpha" "endpoint"
      (by decide) (by decide),
    defaults_retained_and_fallback.2.2.1 (mergeConfigs demoDefaultsFiles)
      "alpha" [("endpoint", "E")] (by decide),
    defaults_retained_and_fallback.2.2.2 [("client", "qpu")]
      [("endpoint", "E")] "client"⟩

/-- Claim C10: is_solver_handled returns false for a falsy solver argument
and otherwise returns true exactly when the solver's id string starts with
the prefix string c4-sw_ (that is, the id extends it by some suffix). -/
theorem is_solver_handled_spec :
    is_solver_handled none = false ∧
    (∀ s : Solver, is_solver_handled (some s) = strStartsWith s.id "c4-sw_") ∧
    (∀ s : Solver, is_solver_handled (some s) = true ↔
      ∃ t, s.id.toList = "c4-sw_".toList ++ t) := by
  exact ⟨rfl, fun s => rfl,
    fun s => isPrefixOf_iff_exists_append "c4-sw_".toList s.id.toList⟩

end Dwave
